import Mathlib

/-!
Shallow embedding of the line-counting core of `src/sloc.go` (zc310/sloc).

Bytes are modelled as `Nat` (the Go code ranges over `[]byte`, values 0–255;
no arithmetic is performed on bytes, only equality tests, so no modular
reduction is needed).  Go panics (out-of-range slice indexing) are modelled
by `Option`: the `…?` functions return `none` exactly where the Go code
would panic, and total counterparts (used for computation and induction) are
proved equal to them under the token-table invariant.
-/

/-- `commenter` (sloc.go:66–71): a language's comment syntax.  The three
tokens are byte sequences; `Nesting` says whether block comments nest. -/
structure commenter where
  LineComment  : List Nat
  StartComment : List Nat
  EndComment   : List Nat
  Nesting      : Bool
deriving DecidableEq

/-- `stats` (sloc.go:191–197), field order as in the source. -/
structure stats where
  FileCount    : Nat
  TotalLines   : Nat
  CodeLines    : Nat
  BlankLines   : Nat
  CommentLines : Nat
deriving DecidableEq

/-- The zero accumulator (`&stats{}` at sloc.go:216). -/
def stats0 : stats := ⟨0, 0, 0, 0, 0⟩

/-- The scanner's transient per-file state (locals of `Update`,
sloc.go:96–102): block-comment depth `inComment`, the line-comment flag,
the blank-line flag, and the three token cursors `lp`, `sp`, `ep`. -/
structure scanState where
  inComment  : Int
  inLComment : Bool
  blank      : Bool
  lp : Nat
  sp : Nat
  ep : Nat
deriving DecidableEq

/-- Initial scanner state (sloc.go:96–102). -/
def initState : scanState := ⟨0, false, true, 0, 0, 0⟩

/-- Line-comment matching for one byte (sloc.go:105–113).  `none` models a
Go index panic; Go's `&&` short-circuits, so `lc[lp]` is read only when
`inComment == 0`. -/
def stepLC? (l : commenter) (b : Nat) (st : scanState) : Option scanState :=
  if st.inComment = 0 then
    match l.LineComment.get? st.lp with
    | none => none
    | some x =>
      if b = x then
        if st.lp + 1 = l.LineComment.length then
          some { st with inLComment := true, lp := 0 }
        else
          some { st with lp := st.lp + 1 }
      else
        some { st with lp := 0 }
  else
    some { st with lp := 0 }

/-- Block-comment start matching for one byte (sloc.go:114–125). -/
def stepSC? (l : commenter) (b : Nat) (st : scanState) : Option scanState :=
  if st.inLComment = false then
    match l.StartComment.get? st.sp with
    | none => none
    | some x =>
      if b = x then
        if st.sp + 1 = l.StartComment.length then
          let d : Int :=
            if 1 < st.inComment + 1 ∧ l.Nesting = false then 1
            else st.inComment + 1
          some { st with sp := 0, inComment := d }
        else
          some { st with sp := st.sp + 1 }
      else
        some { st with sp := 0 }
  else
    some { st with sp := 0 }

/-- Block-comment end matching for one byte (sloc.go:126–136).  The inner
`if inComment > 0` guard (sloc.go:129) is kept even though the outer
condition already implies it. -/
def stepEC? (l : commenter) (b : Nat) (st : scanState) : Option scanState :=
  if st.inLComment = false ∧ 0 < st.inComment then
    match l.EndComment.get? st.ep with
    | none => none
    | some x =>
      if b = x then
        if st.ep + 1 = l.EndComment.length then
          let d : Int :=
            if 0 < st.inComment then st.inComment - 1 else st.inComment
          some { st with ep := 0, inComment := d }
        else
          some { st with ep := st.ep + 1 }
      else
        some { st with ep := 0 }
  else
    some { st with ep := 0 }

/-- Whitespace tracking and newline classification (sloc.go:138–157):
a byte other than space, tab, LF, CR marks the line non-blank; a `\n`
finalizes the line into exactly one of the three buckets, comment status
first, and resets `inLComment` and `blank`. -/
def stepLine (b : Nat) (st : scanState) (s : stats) : scanState × stats :=
  let st := if b ≠ 32 ∧ b ≠ 9 ∧ b ≠ 10 ∧ b ≠ 13 then { st with blank := false } else st
  if b = 10 then
    let s := { s with TotalLines := s.TotalLines + 1 }
    if 0 < st.inComment ∨ st.inLComment = true then
      ({ st with inLComment := false, blank := true },
       { s with CommentLines := s.CommentLines + 1 })
    else if st.blank = true then
      ({ st with blank := true }, { s with BlankLines := s.BlankLines + 1 })
    else
      ({ st with blank := true }, { s with CodeLines := s.CodeLines + 1 })
  else
    (st, s)

/-- One iteration of the scan loop body (sloc.go:104–157), panics as `none`. -/
def updateByte? (l : commenter) (b : Nat) (st : scanState) (s : stats) :
    Option (scanState × stats) := do
  let st ← stepLC? l b st
  let st ← stepSC? l b st
  let st ← stepEC? l b st
  pure (stepLine b st s)

/-- The scan loop (sloc.go:104–158), panics as `none`. -/
def scan? (l : commenter) (c : List Nat) (st : scanState) (s : stats) :
    Option (scanState × stats) :=
  match c with
  | [] => some (st, s)
  | b :: rest =>
    match updateByte? l b st s with
    | none => none
    | some (st, s) => scan? l rest st s

/-- `language.Update` (sloc.go:93–159): bump `FileCount`, then scan the
file's bytes from a fresh scanner state; Go panics modelled as `none`.
(`language` embeds `commenter`; `Update` reads only the `commenter` part.) -/
def commenter.Update? (l : commenter) (c : List Nat) (s : stats) : Option stats :=
  Option.map (fun p => p.2)
    (scan? l c initState { s with FileCount := s.FileCount + 1 })

/-- Total counterpart of `stepLC?`; the `none` branch of the token lookup
(dead under the cursor invariant) resets the cursor. -/
def stepLC (l : commenter) (b : Nat) (st : scanState) : scanState :=
  if st.inComment = 0 then
    match l.LineComment.get? st.lp with
    | none => { st with lp := 0 }
    | some x =>
      if b = x then
        if st.lp + 1 = l.LineComment.length then
          { st with inLComment := true, lp := 0 }
        else
          { st with lp := st.lp + 1 }
      else
        { st with lp := 0 }
  else
    { st with lp := 0 }

/-- Total counterpart of `stepSC?`. -/
def stepSC (l : commenter) (b : Nat) (st : scanState) : scanState :=
  if st.inLComment = false then
    match l.StartComment.get? st.sp with
    | none => { st with sp := 0 }
    | some x =>
      if b = x then
        if st.sp + 1 = l.StartComment.length then
          let d : Int :=
            if 1 < st.inComment + 1 ∧ l.Nesting = false then 1
            else st.inComment + 1
          { st with sp := 0, inComment := d }
        else
          { st with sp := st.sp + 1 }
      else
        { st with sp := 0 }
  else
    { st with sp := 0 }

/-- Total counterpart of `stepEC?`. -/
def stepEC (l : commenter) (b : Nat) (st : scanState) : scanState :=
  if st.inLComment = false ∧ 0 < st.inComment then
    match l.EndComment.get? st.ep with
    | none => { st with ep := 0 }
    | some x =>
      if b = x then
        if st.ep + 1 = l.EndComment.length then
          let d : Int :=
            if 0 < st.inComment then st.inComment - 1 else st.inComment
          { st with ep := 0, inComment := d }
        else
          { st with ep := st.ep + 1 }
      else
        { st with ep := 0 }
  else
    { st with ep := 0 }

/-- Total loop body. -/
def updateByte (l : commenter) (b : Nat) (st : scanState) (s : stats) :
    scanState × stats :=
  stepLine b (stepEC l b (stepSC l b (stepLC l b st))) s

/-- Total scan loop. -/
def scan (l : commenter) (c : List Nat) (st : scanState) (s : stats) :
    scanState × stats :=
  match c with
  | [] => (st, s)
  | b :: rest => scan l rest (updateByte l b st s).1 (updateByte l b st s).2

/-- Total `language.Update`. -/
def commenter.Update (l : commenter) (c : List Nat) (s : stats) : stats :=
  (scan l c initState { s with FileCount := s.FileCount + 1 }).2

/-- The sequence of scanner states (paired with stats) before each byte and
after the last byte of a scan. -/
def scanTrace (l : commenter) (c : List Nat) (st : scanState) (s : stats) :
    List (scanState × stats) :=
  match c with
  | [] => [(st, s)]
  | b :: rest =>
    (st, s) :: scanTrace l rest (updateByte l b st s).1 (updateByte l b st s).2

/-- Block-comment depth before each byte and after the last one, on a fresh
scan of `c`. -/
def depthTrace (l : commenter) (c : List Nat) : List Int :=
  (scanTrace l c initState stats0).map (fun p => p.1.inComment)

/-- Well-formedness of a `commenter` (spec §3: tokens are never empty;
every catalog entry in sloc.go:73–84 uses `"\000"` for an absent token). -/
def commenter.WF (l : commenter) : Prop :=
  0 < l.LineComment.length ∧ 0 < l.StartComment.length ∧ 0 < l.EndComment.length

/-- Cursor invariant: each token cursor is a valid index into its token. -/
def inv (l : commenter) (st : scanState) : Prop :=
  st.lp < l.LineComment.length ∧ st.sp < l.StartComment.length ∧
    st.ep < l.EndComment.length

/-- `cComments` (sloc.go:76): `//`, `/*`, `*/`, no nesting. -/
def cComments : commenter := ⟨[47, 47], [47, 42], [42, 47], false⟩

/-- `hsComments` (sloc.go:80): `--`, `{-`, `-}`, nesting. -/
def hsComments : commenter := ⟨[45, 45], [123, 45], [45, 125], true⟩

/-- `hsComments` with nesting disabled (not in the catalog; used to compare
the two nesting policies on the same tokens). -/
def hsNoNest : commenter := ⟨[45, 45], [123, 45], [45, 125], false⟩

/-- A spec whose line token is `ab` and whose block tokens are the
never-matching sentinel byte 0. -/
def abLine : commenter := ⟨[97, 98], [0], [0], false⟩

/-- Go's `<` on strings: byte-wise lexicographic order (a Go string is a
byte sequence, so `Name` below is a `List Nat`). -/
def strLt : List Nat → List Nat → Bool
  | [], [] => false
  | [], _ :: _ => true
  | _ :: _, [] => false
  | a :: as, b :: bs => if a < b then true else if b < a then false else strLt as bs

/-- `lresult` (sloc.go:279–286), field order as in the source; `Name` is the
string's byte sequence. -/
structure lresult where
  Name         : List Nat
  FileCount    : Nat
  CodeLines    : Nat
  CommentLines : Nat
  BlankLines   : Nat
  TotalLines   : Nat
deriving DecidableEq

/-- `lresult.Add` (sloc.go:288–294): field-wise sum of the five counters
into the receiver; the receiver's `Name` is untouched. -/
def lresult.Add (r a : lresult) : lresult :=
  { r with
    FileCount    := r.FileCount + a.FileCount,
    CodeLines    := r.CodeLines + a.CodeLines,
    CommentLines := r.CommentLines + a.CommentLines,
    BlankLines   := r.BlankLines + a.BlankLines,
    TotalLines   := r.TotalLines + a.TotalLines }

/-- The element comparison underlying `ldata.Less` (sloc.go:268–273):
code lines descending, ties broken by `Name` descending (Go's
`d[i].Name > d[j].Name`). -/
def lresultLess (x y : lresult) : Bool :=
  if x.CodeLines = y.CodeLines then strLt y.Name x.Name
  else decide (y.CodeLines < x.CodeLines)

/-- `ldata.Less` (sloc.go:268–273) on a row list (`sort.Sort` only calls it
with in-range indices; out-of-range reads default). -/
def ldata.Less (d : List lresult) (i j : Nat) : Bool :=
  lresultLess (d.getD i ⟨[], 0, 0, 0, 0, 0⟩) (d.getD j ⟨[], 0, 0, 0, 0, 0⟩)

/-! ### Component lemmas for the scanner steps -/

lemma stepLC_sp (l : commenter) (b : Nat) (st : scanState) :
    (stepLC l b st).sp = st.sp := by
  unfold stepLC
  try dsimp only
  repeat' split
  all_goals rfl

lemma stepLC_ep (l : commenter) (b : Nat) (st : scanState) :
    (stepLC l b st).ep = st.ep := by
  unfold stepLC
  try dsimp only
  repeat' split
  all_goals rfl

lemma stepLC_inComment (l : commenter) (b : Nat) (st : scanState) :
    (stepLC l b st).inComment = st.inComment := by
  unfold stepLC
  try dsimp only
  repeat' split
  all_goals rfl

lemma stepSC_lp (l : commenter) (b : Nat) (st : scanState) :
    (stepSC l b st).lp = st.lp := by
  unfold stepSC
  try dsimp only
  repeat' split
  all_goals rfl

lemma stepSC_ep (l : commenter) (b : Nat) (st : scanState) :
    (stepSC l b st).ep = st.ep := by
  unfold stepSC
  try dsimp only
  repeat' split
  all_goals rfl

lemma stepEC_lp (l : commenter) (b : Nat) (st : scanState) :
    (stepEC l b st).lp = st.lp := by
  unfold stepEC
  try dsimp only
  repeat' split
  all_goals rfl

lemma stepEC_sp (l : commenter) (b : Nat) (st : scanState) :
    (stepEC l b st).sp = st.sp := by
  unfold stepEC
  try dsimp only
  repeat' split
  all_goals rfl

lemma stepLine_lp (b : Nat) (st : scanState) (s : stats) :
    (stepLine b st s).1.lp = st.lp := by
  unfold stepLine
  try dsimp only
  repeat' split
  all_goals rfl

lemma stepLine_sp (b : Nat) (st : scanState) (s : stats) :
    (stepLine b st s).1.sp = st.sp := by
  unfold stepLine
  try dsimp only
  repeat' split
  all_goals rfl

lemma stepLine_ep (b : Nat) (st : scanState) (s : stats) :
    (stepLine b st s).1.ep = st.ep := by
  unfold stepLine
  try dsimp only
  repeat' split
  all_goals rfl

lemma stepLine_inComment (b : Nat) (st : scanState) (s : stats) :
    (stepLine b st s).1.inComment = st.inComment := by
  unfold stepLine
  try dsimp only
  repeat' split
  all_goals rfl

/-! ### Cursor bounds -/

lemma stepLC_lp_lt (l : commenter) (b : Nat) (st : scanState)
    (hw : 0 < l.LineComment.length) (h : st.lp < l.LineComment.length) :
    (stepLC l b st).lp < l.LineComment.length := by
  unfold stepLC
  try dsimp only
  repeat' split
  all_goals simp_all
  all_goals omega

lemma stepSC_sp_lt (l : commenter) (b : Nat) (st : scanState)
    (hw : 0 < l.StartComment.length) (h : st.sp < l.StartComment.length) :
    (stepSC l b st).sp < l.StartComment.length := by
  unfold stepSC
  try dsimp only
  repeat' split
  all_goals simp_all
  all_goals omega

lemma stepEC_ep_lt (l : commenter) (b : Nat) (st : scanState)
    (hw : 0 < l.EndComment.length) (h : st.ep < l.EndComment.length) :
    (stepEC l b st).ep < l.EndComment.length := by
  unfold stepEC
  try dsimp only
  repeat' split
  all_goals simp_all
  all_goals omega

lemma inv_updateByte (l : commenter) (b : Nat) (st : scanState) (s : stats)
    (hw : l.WF) (h : inv l st) : inv l (updateByte l b st s).1 := by
  refine ⟨?_, ?_, ?_⟩
  · simp only [updateByte, stepLine_lp, stepEC_lp, stepSC_lp]
    exact stepLC_lp_lt l b st hw.1 h.1
  · simp only [updateByte, stepLine_sp, stepEC_sp]
    exact stepSC_sp_lt l b _ hw.2.1 (by rw [stepLC_sp]; exact h.2.1)
  · simp only [updateByte, stepLine_ep]
    exact stepEC_ep_lt l b _ hw.2.2 (by rw [stepSC_ep, stepLC_ep]; exact h.2.2)

/-! ### Equivalence of the panicking and total scanners under the invariant -/

lemma stepLC_eq (l : commenter) (b : Nat) (st : scanState)
    (h : st.lp < l.LineComment.length) :
    stepLC? l b st = some (stepLC l b st) := by
  obtain ⟨x, hx⟩ : ∃ x, l.LineComment.get? st.lp = some x := by
    cases hx : l.LineComment.get? st.lp with
    | none => rw [List.get?_eq_none] at hx; omega
    | some x => exact ⟨x, rfl⟩
  unfold stepLC? stepLC
  rw [hx]
  by_cases hc : st.inComment = 0 <;> by_cases hb : b = x <;>
    by_cases hl : st.lp + 1 = l.LineComment.length <;> simp [hc, hb, hl]

lemma stepSC_eq (l : commenter) (b : Nat) (st : scanState)
    (h : st.sp < l.StartComment.length) :
    stepSC? l b st = some (stepSC l b st) := by
  obtain ⟨x, hx⟩ : ∃ x, l.StartComment.get? st.sp = some x := by
    cases hx : l.StartComment.get? st.sp with
    | none => rw [List.get?_eq_none] at hx; omega
    | some x => exact ⟨x, rfl⟩
  unfold stepSC? stepSC
  rw [hx]
  by_cases hc : st.inLComment = false <;> by_cases hb : b = x <;>
    by_cases hl : st.sp + 1 = l.StartComment.length <;> simp [hc, hb, hl]

lemma stepEC_eq (l : commenter) (b : Nat) (st : scanState)
    (h : st.ep < l.EndComment.length) :
    stepEC? l b st = some (stepEC l b st) := by
  obtain ⟨x, hx⟩ : ∃ x, l.EndComment.get? st.ep = some x := by
    cases hx : l.EndComment.get? st.ep with
    | none => rw [List.get?_eq_none] at hx; omega
    | some x => exact ⟨x, rfl⟩
  unfold stepEC? stepEC
  rw [hx]
  by_cases hc : st.inLComment = false ∧ 0 < st.inComment <;> by_cases hb : b = x <;>
    by_cases hl : st.ep + 1 = l.EndComment.length <;> simp [hc, hb, hl]

lemma updateByte_eq (l : commenter) (b : Nat) (st : scanState) (s : stats)
    (h : inv l st) :
    updateByte? l b st s = some (updateByte l b st s) := by
  have h1 : stepLC? l b st = some (stepLC l b st) := stepLC_eq l b st h.1
  have h2 : stepSC? l b (stepLC l b st) = some (stepSC l b (stepLC l b st)) :=
    stepSC_eq l b _ (by rw [stepLC_sp]; exact h.2.1)
  have h3 : stepEC? l b (stepSC l b (stepLC l b st)) =
      some (stepEC l b (stepSC l b (stepLC l b st))) :=
    stepEC_eq l b _ (by rw [stepSC_ep, stepLC_ep]; exact h.2.2)
  simp [updateByte?, updateByte, h1, h2, h3]

lemma scan_eq (l : commenter) (c : List Nat) (st : scanState) (s : stats)
    (hw : l.WF) (h : inv l st) :
    scan? l c st s = some (scan l c st s) := by
  induction c generalizing st s with
  | nil => rfl
  | cons b rest ih =>
    rw [scan?, scan, updateByte_eq l b st s h]
    exact ih _ _ (inv_updateByte l b st s hw h)

lemma inv_init (l : commenter) (hw : l.WF) : inv l initState :=
  ⟨hw.1, hw.2.1, hw.2.2⟩

lemma update_eq (l : commenter) (c : List Nat) (s : stats) (hw : l.WF) :
    l.Update? c s = some (l.Update c s) := by
  unfold commenter.Update? commenter.Update
  rw [scan_eq l c initState _ hw (inv_init l hw)]
  rfl

/-! ### Stats accounting -/

lemma stepLine_snd_ne (b : Nat) (st : scanState) (s : stats) (hb : b ≠ 10) :
    (stepLine b st s).2 = s := by
  unfold stepLine
  try dsimp only
  simp [hb]

lemma stepLine_snd_nl (st : scanState) (s : stats) :
    (stepLine 10 st s).2.TotalLines = s.TotalLines + 1 ∧
      (stepLine 10 st s).2.CodeLines + (stepLine 10 st s).2.CommentLines +
          (stepLine 10 st s).2.BlankLines =
        s.CodeLines + s.CommentLines + s.BlankLines + 1 ∧
      (stepLine 10 st s).2.FileCount = s.FileCount := by
  unfold stepLine
  try dsimp only
  repeat' split
  all_goals simp_all
  all_goals omega

lemma updateByte_snd_ne (l : commenter) (b : Nat) (st : scanState) (s : stats)
    (hb : b ≠ 10) : (updateByte l b st s).2 = s := by
  simp only [updateByte]
  exact stepLine_snd_ne b _ s hb

lemma scan_totals (l : commenter) (c : List Nat) (st : scanState) (s : stats) :
    (scan l c st s).2.TotalLines = s.TotalLines + c.count 10 ∧
      (scan l c st s).2.CodeLines + (scan l c st s).2.CommentLines +
          (scan l c st s).2.BlankLines =
        s.CodeLines + s.CommentLines + s.BlankLines + c.count 10 ∧
      (scan l c st s).2.FileCount = s.FileCount := by
  induction c generalizing st s with
  | nil => simp [scan]
  | cons b rest ih =>
    rw [scan]
    by_cases hb : b = 10
    · subst hb
      obtain ⟨h1, h2, h3⟩ := ih (updateByte l 10 st s).1 (updateByte l 10 st s).2
      obtain ⟨g1, g2, g3⟩ :
          (updateByte l 10 st s).2.TotalLines = s.TotalLines + 1 ∧
            (updateByte l 10 st s).2.CodeLines + (updateByte l 10 st s).2.CommentLines +
                (updateByte l 10 st s).2.BlankLines =
              s.CodeLines + s.CommentLines + s.BlankLines + 1 ∧
            (updateByte l 10 st s).2.FileCount = s.FileCount :=
        stepLine_snd_nl (stepEC l 10 (stepSC l 10 (stepLC l 10 st))) s
      simp only [List.count_cons_self]
      omega
    · rw [updateByte_snd_ne l b st s hb]
      obtain ⟨h1, h2, h3⟩ := ih (updateByte l b st s).1 s
      rw [List.count_cons_of_ne (by omega : (10 : Nat) ≠ b)]
      omega

lemma scan_append (l : commenter) (p q : List Nat) (st : scanState) (s : stats) :
    scan l (p ++ q) st s = scan l q (scan l p st s).1 (scan l p st s).2 := by
  induction p generalizing st s with
  | nil => rfl
  | cons b rest ih => rw [List.cons_append, scan, scan]; exact ih _ _

lemma scan_snd_no_nl (l : commenter) (q : List Nat) (st : scanState) (s : stats)
    (hq : ∀ b ∈ q, b ≠ 10) : (scan l q st s).2 = s := by
  induction q generalizing st s with
  | nil => rfl
  | cons b rest ih =>
    rw [scan]
    have hb : b ≠ 10 := hq b (List.mem_cons_self b rest)
    rw [ih _ _ (fun x hx => hq x (List.mem_cons_of_mem b hx))]
    exact updateByte_snd_ne l b st s hb

/-! ### Stats shifting (merge independence) -/

/-- Field-wise sum of two accumulators. -/
def statsAdd (s t : stats) : stats :=
  ⟨s.FileCount + t.FileCount, s.TotalLines + t.TotalLines, s.CodeLines + t.CodeLines,
    s.BlankLines + t.BlankLines, s.CommentLines + t.CommentLines⟩

lemma stepLine_snd_shift (b : Nat) (st : scanState) (s t : stats) :
    (stepLine b st (statsAdd s t)).2 = statsAdd s (stepLine b st t).2 := by
  cases s with
  | mk a1 a2 a3 a4 a5 =>
    cases t with
    | mk b1 b2 b3 b4 b5 =>
      unfold stepLine statsAdd
      try dsimp only
      repeat' split
      all_goals simp_all [stats.mk.injEq]
      all_goals omega

lemma stepLine_fst_indep (b : Nat) (st : scanState) (s t : stats) :
    (stepLine b st s).1 = (stepLine b st t).1 := by
  unfold stepLine
  try dsimp only
  repeat' split
  all_goals rfl

lemma updateByte_snd_shift (l : commenter) (b : Nat) (st : scanState) (s t : stats) :
    (updateByte l b st (statsAdd s t)).2 = statsAdd s (updateByte l b st t).2 := by
  simp only [updateByte]
  exact stepLine_snd_shift b _ s t

lemma updateByte_fst_indep (l : commenter) (b : Nat) (st : scanState) (s t : stats) :
    (updateByte l b st s).1 = (updateByte l b st t).1 := by
  simp only [updateByte]
  exact stepLine_fst_indep b _ s t

lemma scan_snd_shift (l : commenter) (c : List Nat) (st : scanState) (s t : stats) :
    (scan l c st (statsAdd s t)).2 = statsAdd s (scan l c st t).2 := by
  induction c generalizing st s t with
  | nil => rfl
  | cons b rest ih =>
    rw [scan, scan, updateByte_snd_shift l b st s t,
      updateByte_fst_indep l b st (statsAdd s t) t]
    exact ih _ _ _

lemma statsAdd_comm (s t : stats) : statsAdd s t = statsAdd t s := by
  cases s; cases t
  simp only [statsAdd, stats.mk.injEq]
  omega

lemma statsAdd_assoc (s t u : stats) :
    statsAdd (statsAdd s t) u = statsAdd s (statsAdd t u) := by
  cases s; cases t; cases u
  simp only [statsAdd, stats.mk.injEq]
  omega

lemma update_delta (l : commenter) (c : List Nat) (s : stats) :
    l.Update c s = statsAdd s (l.Update c stats0) := by
  unfold commenter.Update
  rw [show ({ s with FileCount := s.FileCount + 1 }) =
      statsAdd s ({ stats0 with FileCount := stats0.FileCount + 1 }) by
    cases s; simp [statsAdd, stats0]]
  exact scan_snd_shift l c initState s _

lemma update_comm (l : commenter) (A B : List Nat) (s : stats) :
    l.Update B (l.Update A s) = l.Update A (l.Update B s) := by
  rw [update_delta l B (l.Update A s), update_delta l A s,
    update_delta l A (l.Update B s), update_delta l B s,
    statsAdd_assoc, statsAdd_assoc, statsAdd_comm (l.Update A stats0)]

/-! ### Depth non-negativity -/

lemma stepSC_inComment_nonneg (l : commenter) (b : Nat) (st : scanState)
    (h : 0 ≤ st.inComment) : 0 ≤ (stepSC l b st).inComment := by
  unfold stepSC
  try dsimp only
  repeat' split
  all_goals simp_all
  all_goals omega

lemma stepEC_inComment_nonneg (l : commenter) (b : Nat) (st : scanState)
    (h : 0 ≤ st.inComment) : 0 ≤ (stepEC l b st).inComment := by
  unfold stepEC
  try dsimp only
  repeat' split
  all_goals simp_all
  all_goals omega

lemma updateByte_inComment_nonneg (l : commenter) (b : Nat) (st : scanState)
    (s : stats) (h : 0 ≤ st.inComment) :
    0 ≤ (updateByte l b st s).1.inComment := by
  simp only [updateByte, stepLine_inComment]
  exact stepEC_inComment_nonneg l b _
    (stepSC_inComment_nonneg l b _ (by rw [stepLC_inComment]; exact h))

lemma scanTrace_inComment_nonneg (l : commenter) (c : List Nat) (st : scanState)
    (s : stats) (h : 0 ≤ st.inComment) :
    ∀ p ∈ scanTrace l c st s, 0 ≤ p.1.inComment := by
  induction c generalizing st s with
  | nil =>
    intro p hp
    simp [scanTrace] at hp
    rw [hp]
    exact h
  | cons b rest ih =>
    intro p hp
    rw [scanTrace] at hp
    rcases List.mem_cons.mp hp with hp | hp
    · rw [hp]; exact h
    · exact ih _ _ (updateByte_inComment_nonneg l b st s h) p hp

/-! ### Lexicographic byte order -/

lemma strLt_iff (as : List Nat) : ∀ bs, as ≠ bs → (strLt as bs = false ↔ strLt bs as = true) := by
  induction as with
  | nil =>
    intro bs h
    cases bs with
    | nil => exact absurd rfl h
    | cons b bs => simp [strLt]
  | cons a as ih =>
    intro bs h
    cases bs with
    | nil => simp [strLt]
    | cons b bs =>
      by_cases hab : a = b
      · subst hab
        have hne : as ≠ bs := fun he => h (by rw [he])
        simp [strLt, ih bs hne]
      · rcases Nat.lt_or_ge a b with hlt | hge
        · have h1 : ¬ b < a := by omega
          simp [strLt, hlt, h1]
        · have h2 : b < a := by omega
          have h1 : ¬ a < b := by omega
          simp [strLt, h1, h2]

/-! ### The claims -/

/-- C1: for every byte sequence and every well-formed `CommentSpec`, after
`Update` the identity `codeLines + commentLines + blankLines = totalLines`
holds whenever it held before the call (in particular on a fresh
accumulator), and `totalLines` grows by exactly the number of `\n` bytes in
the input (so on a fresh accumulator it equals that count); the identity is
therefore preserved across each subsequent file scan on the same
accumulator. -/
theorem c1_line_totals (l : commenter) (c : List Nat) (s s' : stats) (hw : l.WF)
    (hs : s.CodeLines + s.CommentLines + s.BlankLines = s.TotalLines)
    (hu : l.Update? c s = some s') :
    s'.CodeLines + s'.CommentLines + s'.BlankLines = s'.TotalLines ∧
      s'.TotalLines = s.TotalLines + c.count 10 := by
  rw [update_eq l c s hw] at hu
  obtain rfl : s' = l.Update c s := (Option.some_inj.mp hu).symm
  unfold commenter.Update
  obtain ⟨h1, h2, h3⟩ := scan_totals l c initState { s with FileCount := s.FileCount + 1 }
  have e1 : ({ s with FileCount := s.FileCount + 1 } : stats).TotalLines = s.TotalLines := rfl
  have e2 : ({ s with FileCount := s.FileCount + 1 } : stats).CodeLines = s.CodeLines := rfl
  have e3 : ({ s with FileCount := s.FileCount + 1 } : stats).CommentLines = s.CommentLines := rfl
  have e4 : ({ s with FileCount := s.FileCount + 1 } : stats).BlankLines = s.BlankLines := rfl
  rw [e1] at h1
  rw [e2, e3, e4] at h2
  constructor
  · omega
  · exact h1

/-- C1 witness: scanning the single byte `\n` with the C spec on a fresh
accumulator. -/
theorem c1_line_totals_witness :
    (⟨1, 1, 0, 1, 0⟩ : stats).CodeLines + (⟨1, 1, 0, 1, 0⟩ : stats).CommentLines +
        (⟨1, 1, 0, 1, 0⟩ : stats).BlankLines = (⟨1, 1, 0, 1, 0⟩ : stats).TotalLines ∧
      (⟨1, 1, 0, 1, 0⟩ : stats).TotalLines = stats0.TotalLines + ([10] : List Nat).count 10 :=
  c1_line_totals cComments [10] stats0 ⟨1, 1, 0, 1, 0⟩ (by unfold commenter.WF; decide)
    (by decide) (by decide)

/-- C2 counterexample: the claim predicts that for line token `ab` the input
`aab` produces a full match (which would set `inLComment`); in the code a
mismatched byte is consumed, not re-compared, so no full match occurs and
`inLComment` is still false after the scan. -/
theorem c2_cursor_reset_counterexample :
    ¬ (Option.map (fun p => p.1.inLComment) (scan? abLine [97, 97, 98] initState stats0) =
        some true) := by decide

/-- C2 amended: on a byte that does not match the next expected byte of a
token, that token's cursor is reset to 0 but the byte is consumed without
being compared against the token's first byte — matching restarts at the
NEXT byte.  In particular, for token `ab` the input `aab` produces no full
match, while `aaab` does. -/
theorem c2_cursor_reset_amended (l : commenter) (b x y z : Nat) (st : scanState)
    (hc : st.inComment = 0) (hL : st.inLComment = false)
    (hx : l.LineComment.get? st.lp = some x) (hbx : b ≠ x)
    (hy : l.StartComment.get? st.sp = some y) (hby : b ≠ y)
    (hz : l.EndComment.get? st.ep = some z) (hbz : b ≠ z) :
    (stepLC l b st).lp = 0 ∧ (stepSC l b st).sp = 0 ∧ (stepEC l b st).ep = 0 ∧
      Option.map (fun p => p.1.inLComment) (scan? abLine [97, 97, 98] initState stats0) =
        some false ∧
      Option.map (fun p => p.1.inLComment) (scan? abLine [97, 97, 97, 98] initState stats0) =
        some true := by
  refine ⟨?_, ?_, ?_, by decide, by decide⟩
  · unfold stepLC
    rw [hx]
    simp [hc, hbx]
  · unfold stepSC
    rw [hy]
    simp [hL, hby]
  · unfold stepEC
    by_cases hd : st.inLComment = false ∧ 0 < st.inComment
    · rw [hz]; simp [hd, hbz]
    · simp [hd]

/-- C2 amended witness: byte 98 mismatches all three expected bytes of
`abLine` in the initial state. -/
theorem c2_cursor_reset_amended_witness :
    (stepLC abLine 98 initState).lp = 0 ∧ (stepSC abLine 98 initState).sp = 0 ∧
      (stepEC abLine 98 initState).ep = 0 ∧
      Option.map (fun p => p.1.inLComment) (scan? abLine [97, 97, 98] initState stats0) =
        some false ∧
      Option.map (fun p => p.1.inLComment) (scan? abLine [97, 97, 97, 98] initState stats0) =
        some true :=
  c2_cursor_reset_amended abLine 98 97 0 0 initState (by decide) (by decide)
    (by decide) (by decide) (by decide) (by decide) (by decide) (by decide)

/-- C3 counterexample: on `/*\na\nb\n*/\n` with the C spec the code does NOT
produce `totalLines=4, commentLines=4, codeLines=0, blankLines=0` — the
`*/` has already closed the block when its `\n` is classified, so the last
line counts as code. -/
theorem c3_block_comment_counterexample :
    cComments.Update? [47, 42, 10, 97, 10, 98, 10, 42, 47, 10] stats0 ≠
      some ⟨1, 4, 0, 0, 4⟩ := by decide

/-- C3 amended: `/*\na\nb\n*/\n` under the C spec on a fresh accumulator
yields `totalLines=4, commentLines=3, codeLines=1, blankLines=0` (the line
holding the closing `*/` counts as code, not comment). -/
theorem c3_block_comment_amended :
    cComments.Update? [47, 42, 10, 97, 10, 98, 10, 42, 47, 10] stats0 =
      some ⟨1, 4, 1, 0, 3⟩ := by decide

/-- C4: `int x = 1; // comment\n` under the C spec counts as exactly one
comment line and no code line (comment precedence, no double counting). -/
theorem c4_comment_precedence :
    cComments.Update?
        [105, 110, 116, 32, 120, 32, 61, 32, 49, 59, 32, 47, 47, 32, 99, 111, 109, 109,
          101, 110, 116, 10] stats0 =
      some ⟨1, 1, 0, 0, 1⟩ := by decide

/-- C5: only `\n`-terminated lines are tallied: appending a newline-free
suffix (in particular the trailing unterminated line of a file not ending in
`\n`) changes none of the counters, so `Update` on `p ++ q` equals `Update`
on `p` whenever `q` contains no `\n`. -/
theorem c5_no_trailing_partial_line (l : commenter) (p q : List Nat) (s : stats)
    (hw : l.WF) (hq : ∀ b ∈ q, b ≠ 10) :
    l.Update? (p ++ q) s = l.Update? p s := by
  rw [update_eq l (p ++ q) s hw, update_eq l p s hw]
  congr 1
  unfold commenter.Update
  rw [scan_append]
  exact scan_snd_no_nl l q _ _ hq

/-- C5 witness: `a\nb` and `a\n` give identical stats. -/
theorem c5_no_trailing_partial_line_witness :
    cComments.Update? ([97, 10] ++ [98]) stats0 = cComments.Update? [97, 10] stats0 :=
  c5_no_trailing_partial_line cComments [97, 10] [98] stats0 (by unfold commenter.WF; decide)
    (by decide)

/-- C6: on `{- {- -} -}\n` with the nesting Haskell spec the depth trace is
0,1,1,1,2,2,2,1,1,1,0,0 (after each byte) — depth goes 1, 2, 1, 0 and the
scanner stays inside-comment until the final `-}`; with nesting disabled the
depth is clamped to at most 1 at all times and the first `-}` already ends
the comment. -/
theorem c6_nesting_policy :
    depthTrace hsComments [123, 45, 32, 123, 45, 32, 45, 125, 32, 45, 125, 10] =
        [0, 0, 1, 1, 1, 2, 2, 2, 1, 1, 1, 0, 0] ∧
      depthTrace hsNoNest [123, 45, 32, 123, 45, 32, 45, 125, 32, 45, 125, 10] =
        [0, 0, 1, 1, 1, 1, 1, 1, 0, 0, 0, 0, 0] ∧
      (depthTrace hsNoNest [123, 45, 32, 123, 45, 32, 45, 125, 32, 45, 125, 10]).all
        (fun d => decide (d ≤ 1)) = true := by decide

/-- C7: `Update` is total for every byte sequence and every well-formed
spec — no token-table access goes out of bounds (the panicking model returns
`some`), and the block depth never goes below 0 at any point of the scan. -/
theorem c7_totality (l : commenter) (c : List Nat) (s : stats) (hw : l.WF) :
    l.Update? c s = some (l.Update c s) ∧
      (scanTrace l c initState { s with FileCount := s.FileCount + 1 }).all
        (fun p => decide (0 ≤ p.1.inComment)) = true := by
  refine ⟨update_eq l c s hw, ?_⟩
  rw [List.all_eq_true]
  intro p hp
  rw [decide_eq_true_eq]
  exact scanTrace_inComment_nonneg l c initState _ (by decide) p hp

/-- C7 witness: the C spec on `/*\n`. -/
theorem c7_totality_witness :
    cComments.Update? [47, 42, 10] stats0 = some (cComments.Update [47, 42, 10] stats0) ∧
      (scanTrace cComments [47, 42, 10] initState
          { stats0 with FileCount := stats0.FileCount + 1 }).all
        (fun p => decide (0 ≤ p.1.inComment)) = true :=
  c7_totality cComments [47, 42, 10] stats0 (by unfold commenter.WF; decide)

/-- C8 counterexample: `lresult.Add` keeps the receiver's `Name`, so it is
not commutative as an operation on `lresult` when the names differ. -/
theorem c8_merge_counterexample :
    lresult.Add ⟨[65], 0, 0, 0, 0, 0⟩ ⟨[66], 0, 0, 0, 0, 0⟩ ≠
      lresult.Add ⟨[66], 0, 0, 0, 0, 0⟩ ⟨[65], 0, 0, 0, 0, 0⟩ := by decide

/-- C8 amended: `Update(A)` then `Update(B)` on one accumulator gives the
same stats as `Update(B)` then `Update(A)`; `lresult.Add` is commutative on
all five counter fields and fully associative, but it keeps the receiver's
`Name` (so commutativity as full record equality fails when names differ). -/
theorem c8_merge_amended (l : commenter) (A B : List Nat) (s : stats)
    (x y z : lresult) (hw : l.WF) :
    (l.Update? A s).bind (l.Update? B) = (l.Update? B s).bind (l.Update? A) ∧
      (x.Add y).FileCount = (y.Add x).FileCount ∧
      (x.Add y).CodeLines = (y.Add x).CodeLines ∧
      (x.Add y).CommentLines = (y.Add x).CommentLines ∧
      (x.Add y).BlankLines = (y.Add x).BlankLines ∧
      (x.Add y).TotalLines = (y.Add x).TotalLines ∧
      (x.Add y).Name = x.Name ∧
      (x.Add y).Add z = x.Add (y.Add z) := by
  refine ⟨?_, ?_, ?_, ?_, ?_, ?_, rfl, ?_⟩
  · rw [update_eq l A s hw, update_eq l B s hw]
    show l.Update? B (l.Update A s) = l.Update? A (l.Update B s)
    rw [update_eq l B _ hw, update_eq l A _ hw, update_comm l A B s]
  · simp [lresult.Add, Nat.add_comm]
  · simp [lresult.Add, Nat.add_comm]
  · simp [lresult.Add, Nat.add_comm]
  · simp [lresult.Add, Nat.add_comm]
  · simp [lresult.Add, Nat.add_comm]
  · simp [lresult.Add, Nat.add_assoc]

/-- C8 amended witness: concrete files and rows. -/
theorem c8_merge_amended_witness :
    (cComments.Update? [10] stats0).bind (cComments.Update? []) =
        (cComments.Update? [] stats0).bind (cComments.Update? [10]) ∧
      ((⟨[65], 1, 2, 3, 4, 9⟩ : lresult).Add ⟨[66], 5, 6, 7, 8, 21⟩).FileCount =
        ((⟨[66], 5, 6, 7, 8, 21⟩ : lresult).Add ⟨[65], 1, 2, 3, 4, 9⟩).FileCount ∧
      ((⟨[65], 1, 2, 3, 4, 9⟩ : lresult).Add ⟨[66], 5, 6, 7, 8, 21⟩).CodeLines =
        ((⟨[66], 5, 6, 7, 8, 21⟩ : lresult).Add ⟨[65], 1, 2, 3, 4, 9⟩).CodeLines ∧
      ((⟨[65], 1, 2, 3, 4, 9⟩ : lresult).Add ⟨[66], 5, 6, 7, 8, 21⟩).CommentLines =
        ((⟨[66], 5, 6, 7, 8, 21⟩ : lresult).Add ⟨[65], 1, 2, 3, 4, 9⟩).CommentLines ∧
      ((⟨[65], 1, 2, 3, 4, 9⟩ : lresult).Add ⟨[66], 5, 6, 7, 8, 21⟩).BlankLines =
        ((⟨[66], 5, 6, 7, 8, 21⟩ : lresult).Add ⟨[65], 1, 2, 3, 4, 9⟩).BlankLines ∧
      ((⟨[65], 1, 2, 3, 4, 9⟩ : lresult).Add ⟨[66], 5, 6, 7, 8, 21⟩).TotalLines =
        ((⟨[66], 5, 6, 7, 8, 21⟩ : lresult).Add ⟨[65], 1, 2, 3, 4, 9⟩).TotalLines ∧
      ((⟨[65], 1, 2, 3, 4, 9⟩ : lresult).Add ⟨[66], 5, 6, 7, 8, 21⟩).Name = [65] ∧
      ((⟨[65], 1, 2, 3, 4, 9⟩ : lresult).Add ⟨[66], 5, 6, 7, 8, 21⟩).Add ⟨[67], 1, 1, 1, 1, 4⟩ =
        (⟨[65], 1, 2, 3, 4, 9⟩ : lresult).Add
          ((⟨[66], 5, 6, 7, 8, 21⟩ : lresult).Add ⟨[67], 1, 1, 1, 1, 4⟩) :=
  c8_merge_amended cComments [10] [] stats0 ⟨[65], 1, 2, 3, 4, 9⟩ ⟨[66], 5, 6, 7, 8, 21⟩
    ⟨[67], 1, 1, 1, 1, 4⟩ (by unfold commenter.WF; decide)

/-- C9 counterexample: two rows with equal `CodeLines` and names `A` < `B`;
the claim predicts the smaller name comes first (`Less 0 1 = true`), but the
code compares `Name >`, so `Less 0 1` is false. -/
theorem c9_sort_order_counterexample :
    ¬ (ldata.Less [⟨[65], 1, 5, 0, 0, 5⟩, ⟨[66], 1, 5, 0, 0, 5⟩] 0 1 = true) := by decide

/-- C9 amended: rows are sorted by code-line count descending with ties
broken by name DESCENDING — for equal `CodeLines` the row whose `Name` is
lexicographically greater comes first — and for distinct names the order is
deterministic (exactly one direction of the comparison holds). -/
theorem c9_sort_order_amended (x y : lresult) (htie : x.CodeLines = y.CodeLines)
    (hn : x.Name ≠ y.Name) :
    lresultLess x y = strLt y.Name x.Name ∧
      (lresultLess x y = false ↔ lresultLess y x = true) := by
  constructor
  · simp [lresultLess, htie]
  · have e1 : lresultLess x y = strLt y.Name x.Name := by simp [lresultLess, htie]
    have e2 : lresultLess y x = strLt x.Name y.Name := by simp [lresultLess, htie.symm]
    rw [e1, e2]
    exact strLt_iff y.Name x.Name (fun he => hn he.symm)

/-- C9 amended witness: rows named `B` and `A` with equal code counts; the
`B` row compares before the `A` row. -/
theorem c9_sort_order_amended_witness :
    lresultLess ⟨[66], 1, 5, 0, 0, 5⟩ ⟨[65], 1, 5, 0, 0, 5⟩ = strLt [65] [66] ∧
      (lresultLess ⟨[66], 1, 5, 0, 0, 5⟩ ⟨[65], 1, 5, 0, 0, 5⟩ = false ↔
        lresultLess ⟨[65], 1, 5, 0, 0, 5⟩ ⟨[66], 1, 5, 0, 0, 5⟩ = true) :=
  c9_sort_order_amended ⟨[66], 1, 5, 0, 0, 5⟩ ⟨[65], 1, 5, 0, 0, 5⟩ rfl (by decide)

/-- C10: on `/*\n*/\n` with the C spec, the line holding the closing `*/` is
not a comment line: the result is `totalLines=2, commentLines=1,
codeLines=1, blankLines=0`; after consuming `/*\n*/` the depth is already 0
and the end-token bytes have marked the line non-blank. -/
theorem c10_close_line_counts_as_code :
    cComments.Update? [47, 42, 10, 42, 47, 10] stats0 = some ⟨1, 2, 1, 0, 1⟩ ∧
      (scan cComments [47, 42, 10, 42, 47] initState stats0).1.inComment = 0 ∧
      (scan cComments [47, 42, 10, 42, 47] initState stats0).1.blank = false := by decide
